import Mathlib

/-!
# Verification of the p2p-chat networking/protocol engine

Shallow embedding of the p2p-chat core (src/p2p-chat/src/protocol.rs and
src/p2p-chat/src/client.rs) and proofs of the specification's claims.

Modelling conventions:
* A Rust `String` is modelled by its UTF-8 byte sequence `List Nat`
  (so `len()` / `is_empty()` are list length / emptiness, matching Rust's
  byte-oriented semantics).
* A `PeerId` (derived deterministically from a public key) is modelled as
  an opaque `Nat`.
* `rmp_serde` (MessagePack) serialization of the concrete schema types is
  modelled by an explicit self-describing, length-prefixed binary codec
  (`encNat`/`parseNat` etc.): tagged variants carry a tag byte, strings and
  lists are length-prefixed. The codec preserves the properties the claims
  depend on (total injective encoding, partial inverse decoding); exact
  byte values of the external library are not claimed.
* Side effects on the libp2p swarm (gossipsub subscribe/publish/validation
  reports, Kademlia queries, log warnings) are modelled as an explicit list
  of `Action` values returned by each operation.
-/

namespace P2PChat

/-- Model of a Rust `String` as its UTF-8 byte sequence. -/
abbrev ByteStr := List Nat

/-- Bytes of a string literal, for the fixed protocol constants. All such
constants are ASCII, where each character's code point is its single UTF-8
byte. -/
def strBytes (s : String) : ByteStr := s.data.map Char.toNat

/-- Model of `libp2p::PeerId`: an opaque identifier derived from a public key. -/
abbrev PeerId := Nat

/-- `pub type ChannelIdentifier = String;` (protocol.rs). -/
abbrev ChannelIdentifier := ByteStr

/-- `DEFAULT_GOSSIPSUB_TOPIC`: the gossipsub topic for top-level network
communication (protocol.rs). -/
def DEFAULT_GOSSIPSUB_TOPIC : String := "/p2p-chat"

/-- `SIGNED_ENVELOPE_DOMAIN`: the signed envelope domain for the Kademlia
memory store (protocol.rs). -/
def SIGNED_ENVELOPE_DOMAIN : String := "p2p-chat-data"

/-- `MAX_MESSAGE_LENGTH`: maximum length of a message (protocol.rs). -/
def MAX_MESSAGE_LENGTH : Nat := 512

/-- `MAX_CHANNEL_IDENTIFIER_LENGTH`: maximum length of a channel identifier
(protocol.rs). -/
def MAX_CHANNEL_IDENTIFIER_LENGTH : Nat := 20

/-- `MAX_NICK_LENGTH`: maximum length of a nickname (protocol.rs). -/
def MAX_NICK_LENGTH : Nat := 20

/-- `MULTICODEC_MSGPACK`: the MessagePack codec code within multicodec
(protocol.rs). -/
def MULTICODEC_MSGPACK : List Nat := [0x02, 0x01]

/-- The error type of the crate (error.rs), restricted to the variants the
embedded code paths can produce. `DecodeError` stands for
`rmp_serde::decode::Error`; the two envelope variants stand for the libp2p
signed-envelope errors. -/
inductive Error where
  | DecodeError : Error
  | SignedEnvelopeDecodeError : Error
  | SignedEnvelopeReadPayloadError : Error
  | InvalidData : String → Error
  | SignatureMismatch : Error
  deriving DecidableEq, Repr

/-- `struct Channel` (protocol.rs): channel metadata. -/
structure Channel where
  identifier : ChannelIdentifier
  owner : PeerId
  peers : List PeerId
  version : Nat
  deriving DecidableEq, Repr

/-- `enum MessageType` (protocol.rs). -/
inductive MessageType where
  | Normal : MessageType
  | Me : MessageType
  deriving DecidableEq, Repr

/-- `enum Command` (protocol.rs): the wire message schema. -/
inductive Command where
  | ChannelUpdate : Channel → Command
  | ChannelRequestJoin : ChannelIdentifier → Command
  | ChannelRequestLeave : ChannelIdentifier → Command
  | MessageSend : ByteStr → ChannelIdentifier → Nat → MessageType → Command
  | NicknameUpdate : ByteStr → Command
  deriving DecidableEq, Repr

/-- `enum MemoryKey` (protocol.rs): DHT record key. -/
inductive MemoryKey where
  | Nickname : PeerId → MemoryKey
  | Channel : ByteStr → MemoryKey
  deriving DecidableEq, Repr

/-- `enum MemoryValue` (protocol.rs): DHT record value. -/
inductive MemoryValue where
  | Nickname : PeerId → ByteStr → MemoryValue
  | Channel : Channel → MemoryValue
  deriving DecidableEq, Repr

/-! ## Binary codec primitives

Model of the `rmp_serde` MessagePack serialization used by the crate: a
total, self-describing, length-prefixed byte encoding with a partial
inverse parser. -/

/-- Helper for `encNat`: structural recursion on a fuel bound (any fuel of
at least `n + 1` yields the digits of `n`, since `n / 255 < n`). -/
def encNatGo : Nat → Nat → List Nat
  | 0, _ => [255]
  | fuel + 1, n => if n = 0 then [255] else (n % 255) :: encNatGo fuel (n / 255)

/-- Encode a natural number as base-255 digits terminated by the byte 255. -/
def encNat (n : Nat) : List Nat := encNatGo (n + 1) n

/-- Parse a natural number encoded by `encNat`, returning the remainder. -/
def parseNat : List Nat → Option (Nat × List Nat)
  | [] => none
  | b :: rest =>
    if b = 255 then some (0, rest)
    else
      match parseNat rest with
      | some (n, rest') => some (b + 255 * n, rest')
      | none => none

theorem parseNat_encNatGo (fuel : Nat) :
    ∀ n, n ≤ fuel → ∀ rest,
      parseNat (encNatGo (fuel + 1) n ++ rest) = some (n, rest) := by
  induction fuel with
  | zero =>
    intro n hn rest
    interval_cases n
    simp [encNatGo, parseNat]
  | succ fuel ih =>
    intro n hn rest
    by_cases h : n = 0
    · simp [h, encNatGo, parseNat]
    · have hlt : n % 255 < 255 := Nat.mod_lt _ (by norm_num)
      have hne : n % 255 ≠ 255 := by omega
      have hdiv : n / 255 < n :=
        Nat.div_lt_self (Nat.pos_of_ne_zero h) (by norm_num)
      have hfuel : n / 255 ≤ fuel := by omega
      have hunfold : encNatGo (fuel + 1 + 1) n =
          (n % 255) :: encNatGo (fuel + 1) (n / 255) := by
        simp [encNatGo, h]
      have hmod : n % 255 + 255 * (n / 255) = n := Nat.mod_add_div n 255
      rw [hunfold, List.cons_append]
      simp [parseNat, hne, ih (n / 255) hfuel rest, hmod]

theorem parseNat_encNat (n : Nat) (rest : List Nat) :
    parseNat (encNat n ++ rest) = some (n, rest) :=
  parseNat_encNatGo n n le_rfl rest

/-- Encode a byte string: length prefix followed by the raw bytes. -/
def encBytes (s : ByteStr) : List Nat := encNat s.length ++ s

/-- Parse a byte string encoded by `encBytes`. -/
def parseBytes (input : List Nat) : Option (ByteStr × List Nat) :=
  match parseNat input with
  | some (len, rest) =>
    if len ≤ rest.length then some (rest.take len, rest.drop len) else none
  | none => none

theorem parseBytes_encBytes (s : ByteStr) (rest : List Nat) :
    parseBytes (encBytes s ++ rest) = some (s, rest) := by
  simp only [encBytes, List.append_assoc, parseBytes, parseNat_encNat]
  have hle : s.length ≤ (s ++ rest).length := by
    simp [List.length_append]
  simp [hle, List.take_left, List.drop_left]

/-- Encode a list of values by concatenating their encodings. -/
def encListAux (enc : α → List Nat) : List α → List Nat
  | [] => []
  | x :: xs => enc x ++ encListAux enc xs

/-- Encode a list: length prefix followed by the element encodings. -/
def encList (enc : α → List Nat) (xs : List α) : List Nat :=
  encNat xs.length ++ encListAux enc xs

/-- Parse exactly `n` values using the element parser `p`. -/
def parseCount (p : List Nat → Option (α × List Nat)) :
    Nat → List Nat → Option (List α × List Nat)
  | 0, input => some ([], input)
  | n + 1, input =>
    match p input with
    | some (x, rest) =>
      match parseCount p n rest with
      | some (xs, rest') => some (x :: xs, rest')
      | none => none
    | none => none

/-- Parse a list encoded by `encList`. -/
def parseList (p : List Nat → Option (α × List Nat)) (input : List Nat) :
    Option (List α × List Nat) :=
  match parseNat input with
  | some (n, rest) => parseCount p n rest
  | none => none

theorem parseCount_encListAux (p : List Nat → Option (α × List Nat))
    (enc : α → List Nat)
    (hp : ∀ x rest, p (enc x ++ rest) = some (x, rest))
    (xs : List α) (rest : List Nat) :
    parseCount p xs.length (encListAux enc xs ++ rest) = some (xs, rest) := by
  induction xs with
  | nil => simp [encListAux, parseCount]
  | cons x xs ih =>
    simp [encListAux, parseCount, hp, ih]

theorem parseList_encList (p : List Nat → Option (α × List Nat))
    (enc : α → List Nat)
    (hp : ∀ x rest, p (enc x ++ rest) = some (x, rest))
    (xs : List α) (rest : List Nat) :
    parseList p (encList enc xs ++ rest) = some (xs, rest) := by
  simp [encList, parseList, parseNat_encNat, parseCount_encListAux p enc hp]

/-! ## Schema codecs

Serialization of the concrete schema types, mirroring the `serde` derives
on `MessageType`, `Channel`, `Command`, `MemoryKey` and `MemoryValue`:
enum variants carry their variant index as a tag, struct fields are
serialized in declaration order. -/

/-- Serialize a `MessageType` (variant tag only). -/
def encMessageType : MessageType → List Nat
  | .Normal => [0]
  | .Me => [1]

/-- Parse a `MessageType`. -/
def parseMessageType : List Nat → Option (MessageType × List Nat)
  | 0 :: rest => some (.Normal, rest)
  | 1 :: rest => some (.Me, rest)
  | _ => none

theorem parseMessageType_encMessageType (mt : MessageType) (rest : List Nat) :
    parseMessageType (encMessageType mt ++ rest) = some (mt, rest) := by
  cases mt <;> simp [encMessageType, parseMessageType]

/-- Serialize a `Channel`: fields in declaration order. -/
def encChannel (ch : Channel) : List Nat :=
  encBytes ch.identifier ++ encNat ch.owner ++ encList encNat ch.peers ++
    encNat ch.version

/-- Parse a `Channel`. -/
def parseChannel (input : List Nat) : Option (Channel × List Nat) :=
  match parseBytes input with
  | some (identifier, r1) =>
    match parseNat r1 with
    | some (owner, r2) =>
      match parseList parseNat r2 with
      | some (peers, r3) =>
        match parseNat r3 with
        | some (version, r4) =>
          some (⟨identifier, owner, peers, version⟩, r4)
        | none => none
      | none => none
    | none => none
  | none => none

theorem parseChannel_encChannel (ch : Channel) (rest : List Nat) :
    parseChannel (encChannel ch ++ rest) = some (ch, rest) := by
  simp [encChannel, parseChannel, List.append_assoc, parseBytes_encBytes,
    parseNat_encNat, parseList_encList parseNat encNat parseNat_encNat]

/-- Serialize a `Command`: variant tag then fields in order. -/
def encCommand : Command → List Nat
  | .ChannelUpdate channel => 0 :: encChannel channel
  | .ChannelRequestJoin channel => 1 :: encBytes channel
  | .ChannelRequestLeave channel => 2 :: encBytes channel
  | .MessageSend contents channel timestamp messageType =>
    3 :: (encBytes contents ++ encBytes channel ++ encNat timestamp ++
      encMessageType messageType)
  | .NicknameUpdate nick => 4 :: encBytes nick

/-- Parse a `Command`. -/
def parseCommand : List Nat → Option (Command × List Nat)
  | 0 :: rest =>
    match parseChannel rest with
    | some (channel, r) => some (.ChannelUpdate channel, r)
    | none => none
  | 1 :: rest =>
    match parseBytes rest with
    | some (channel, r) => some (.ChannelRequestJoin channel, r)
    | none => none
  | 2 :: rest =>
    match parseBytes rest with
    | some (channel, r) => some (.ChannelRequestLeave channel, r)
    | none => none
  | 3 :: rest =>
    match parseBytes rest with
    | some (contents, r1) =>
      match parseBytes r1 with
      | some (channel, r2) =>
        match parseNat r2 with
        | some (timestamp, r3) =>
          match parseMessageType r3 with
          | some (messageType, r4) =>
            some (.MessageSend contents channel timestamp messageType, r4)
          | none => none
        | none => none
      | none => none
    | none => none
  | 4 :: rest =>
    match parseBytes rest with
    | some (nick, r) => some (.NicknameUpdate nick, r)
    | none => none
  | _ => none

theorem parseCommand_encCommand (c : Command) (rest : List Nat) :
    parseCommand (encCommand c ++ rest) = some (c, rest) := by
  cases c <;>
    simp [encCommand, parseCommand, List.append_assoc, parseBytes_encBytes,
      parseNat_encNat, parseChannel_encChannel, parseMessageType_encMessageType]

/-- Serialize a `MemoryKey`: variant tag then payload. -/
def encMemoryKey : MemoryKey → List Nat
  | .Nickname peer => 0 :: encNat peer
  | .Channel s => 1 :: encBytes s

/-- Parse a `MemoryKey`. -/
def parseMemoryKey : List Nat → Option (MemoryKey × List Nat)
  | 0 :: rest =>
    match parseNat rest with
    | some (peer, r) => some (.Nickname peer, r)
    | none => none
  | 1 :: rest =>
    match parseBytes rest with
    | some (s, r) => some (.Channel s, r)
    | none => none
  | _ => none

theorem parseMemoryKey_encMemoryKey (k : MemoryKey) (rest : List Nat) :
    parseMemoryKey (encMemoryKey k ++ rest) = some (k, rest) := by
  cases k <;> simp [encMemoryKey, parseMemoryKey, parseNat_encNat,
    parseBytes_encBytes]

/-- Serialize a `MemoryValue`: variant tag then fields in order. -/
def encMemoryValue : MemoryValue → List Nat
  | .Nickname user nickname => 0 :: (encNat user ++ encBytes nickname)
  | .Channel channel => 1 :: encChannel channel

/-- Parse a `MemoryValue`. -/
def parseMemoryValue : List Nat → Option (MemoryValue × List Nat)
  | 0 :: rest =>
    match parseNat rest with
    | some (user, r1) =>
      match parseBytes r1 with
      | some (nickname, r2) => some (.Nickname user nickname, r2)
      | none => none
    | none => none
  | 1 :: rest =>
    match parseChannel rest with
    | some (channel, r) => some (.Channel channel, r)
    | none => none
  | _ => none

theorem parseMemoryValue_encMemoryValue (v : MemoryValue) (rest : List Nat) :
    parseMemoryValue (encMemoryValue v ++ rest) = some (v, rest) := by
  cases v <;> simp [encMemoryValue, parseMemoryValue, List.append_assoc,
    parseNat_encNat, parseBytes_encBytes, parseChannel_encChannel]

/-! ## Command validation, encode and decode (protocol.rs, `impl Command`) -/

/-- `Command::is_valid` (protocol.rs lines 79-98). -/
def Command.is_valid : Command → Bool
  | .MessageSend contents channel _ _ =>
    !contents.isEmpty && contents.length ≤ MAX_MESSAGE_LENGTH &&
      !channel.isEmpty && channel.length ≤ MAX_CHANNEL_IDENTIFIER_LENGTH
  | .NicknameUpdate nick =>
    !nick.isEmpty && nick.length ≤ MAX_NICK_LENGTH
  | _ => true

/-- `Command::check_valid` (protocol.rs lines 100-108). -/
def Command.check_valid (c : Command) : Except Error Unit :=
  if !c.is_valid then
    .error (.InvalidData "command is not valid")
  else
    .ok ()

/-- `Command::decode` (protocol.rs lines 65-72): deserialize, then
`check_valid`. -/
def Command.decode (encoded : List Nat) : Except Error Command :=
  match parseCommand encoded with
  | none => .error .DecodeError
  | some (dec, _) =>
    match dec.check_valid with
    | .error e => .error e
    | .ok _ => .ok dec

/-- `Command::encode` (protocol.rs lines 74-77): `check_valid`, then
serialize. -/
def Command.encode (c : Command) : Except Error (List Nat) :=
  match c.check_valid with
  | .error e => .error e
  | .ok _ => .ok (encCommand c)

/-! ## Signed record subsystem (protocol.rs, `impl MemoryKey` /
`impl MemoryValue`) -/

/-- Model of `libp2p::identity::Keypair`: identified by the `PeerId` its
public key deterministically maps to. -/
structure Keypair where
  publicId : PeerId
  deriving DecidableEq, Repr

/-- Model of `libp2p::core::SignedEnvelope`: the payload together with the
signing key's identifier and the domain / payload-type metadata the
signature is bound to. Signature bytes themselves are abstracted: an
envelope value represents an envelope whose signature verifies for its
recorded `publicId`, domain and payload type, exactly what
`SignedEnvelope::new` produces and `payload_and_signing_key` checks. -/
structure SignedEnvelope where
  publicId : PeerId
  domain : String
  payloadType : List Nat
  payload : List Nat
  deriving DecidableEq, Repr

/-- `SignedEnvelope::payload_and_signing_key`: verifies the signature
against the supplied domain string and payload type, failing with a
read-payload error on mismatch, and returns the payload with the signing
key. -/
def SignedEnvelope.payload_and_signing_key (e : SignedEnvelope)
    (domain : String) (payloadType : List Nat) :
    Except Error (List Nat × PeerId) :=
  if e.domain = domain ∧ e.payloadType = payloadType then
    .ok (e.payload, e.publicId)
  else
    .error .SignedEnvelopeReadPayloadError

/-- `MemoryKey::decode` (protocol.rs lines 118-120). -/
def MemoryKey.decode (encoded : List Nat) : Except Error MemoryKey :=
  match parseMemoryKey encoded with
  | none => .error .DecodeError
  | some (k, _) => .ok k

/-- `MemoryKey::encode` (protocol.rs lines 122-124). Serialization of this
schema cannot fail, so the model is total. -/
def MemoryKey.encode (k : MemoryKey) : List Nat := encMemoryKey k

/-- `MemoryValue::decode` (protocol.rs lines 134-152): open the signed
envelope with the fixed domain and payload type, deserialize the payload,
and require the value's declared owner to equal the signer. -/
def MemoryValue.decode (envelope : SignedEnvelope) :
    Except Error MemoryValue :=
  match envelope.payload_and_signing_key SIGNED_ENVELOPE_DOMAIN
      MULTICODEC_MSGPACK with
  | .error e => .error e
  | .ok (payload, signingKey) =>
    match parseMemoryValue payload with
    | none => .error .DecodeError
    | some (value, _) =>
      let expected_signer := match value with
        | .Nickname user _ => user
        | .Channel channel => channel.owner
      if expected_signer ≠ signingKey then
        .error .SignatureMismatch
      else
        .ok value

/-- `MemoryValue::encode_signed` (protocol.rs lines 154-163): serialize the
value and wrap it in a signed envelope under the fixed domain and payload
type. Signing with a well-formed keypair cannot fail, so the model is
total. -/
def MemoryValue.encode_signed (v : MemoryValue) (key : Keypair) :
    SignedEnvelope :=
  { publicId := key.publicId
    domain := SIGNED_ENVELOPE_DOMAIN
    payloadType := MULTICODEC_MSGPACK
    payload := encMemoryValue v }

/-- The owner a `MemoryValue` declares: `user` for a nickname binding,
`channel.owner` for channel metadata (the `expected_signer` match in
`MemoryValue::decode`). -/
def MemoryValue.declaredOwner : MemoryValue → PeerId
  | .Nickname user _ => user
  | .Channel channel => channel.owner

/-- `topic_from_channel` (protocol.rs lines 166-168): the per-channel
gossipsub topic, a fixed prefix concatenated with the identifier. -/
def topic_from_channel (ident : ChannelIdentifier) : ByteStr :=
  strBytes "/p2p-chat/channel/" ++ ident

/-! ## Client engine (client.rs)

The libp2p swarm is external to the engine's own state; calls into it
(gossipsub subscribe / validation reports, Kademlia queries) and log
warnings are modelled as an explicit list of `Action` values emitted by
each operation, in call order. -/

/-- `gossipsub::MessageAcceptance`. -/
inductive MessageAcceptance where
  | Accept : MessageAcceptance
  | Reject : MessageAcceptance
  | Ignore : MessageAcceptance
  deriving DecidableEq, Repr

/-- A side effect of the engine on the swarm or the log. -/
inductive Action where
  | GossipSubscribe : ByteStr → Action
  | GossipUnsubscribe : ByteStr → Action
  | KadStartProviding : List Nat → Action
  | KadPutRecord : List Nat → SignedEnvelope → Action
  | KadGetRecord : List Nat → Action
  | ReportMessageValidationResult : MessageAcceptance → Action
  | LogWarning : Action
  deriving DecidableEq, Repr

/-- `enum ClientEvent` (client.rs lines 71-90), the dial/connection error
payloads abstracted. -/
inductive ClientEvent where
  | Message : ByteStr → ChannelIdentifier → Nat → MessageType → PeerId →
      ClientEvent
  | UpdatedNickname : ByteStr → PeerId → ClientEvent
  | PeerConnected : PeerId → ClientEvent
  | PeerDisconnected : PeerId → ClientEvent
  | Dialing : PeerId → ClientEvent
  | OutgoingConnectionError : Option PeerId → ClientEvent
  deriving DecidableEq, Repr

/-- `struct Client` (client.rs lines 93-99): the engine's own state. The
`HashMap<PeerId, Option<String>>` nickname cache is modelled as a function
map; the swarm is external (see `Action`). -/
structure Client where
  nick : ByteStr
  nick_cache : PeerId → Option (Option ByteStr)
  channels : List ChannelIdentifier
  id_keys : Keypair

/-- `HashMap::insert` on the function-map model of the nickname cache. -/
def cacheInsert (m : PeerId → Option (Option ByteStr)) (p : PeerId)
    (v : Option ByteStr) : PeerId → Option (Option ByteStr) :=
  fun q => if q = p then some v else m q

/-- `Client::new` (client.rs lines 102-186), restricted to the engine
state and its swarm calls: start providing the own-nickname record, put
the signed record, subscribe to the default topic, and seed the nickname
cache with the node's own nickname. -/
def Client.new (nick : ByteStr) (id_keys : Keypair) : Client × List Action :=
  let peer_id := id_keys.publicId
  let nick_key := (MemoryKey.Nickname peer_id).encode
  let nick_value := (MemoryValue.Nickname peer_id nick).encode_signed id_keys
  ({ nick := nick
     nick_cache := cacheInsert (fun _ => none) peer_id (some nick)
     channels := []
     id_keys := id_keys },
   [.KadStartProviding nick_key, .KadPutRecord nick_key nick_value,
    .GossipSubscribe (strBytes DEFAULT_GOSSIPSUB_TOPIC)])

/-- `Client::peer_id` (client.rs lines 283-285). -/
def Client.peer_id (c : Client) : PeerId := c.id_keys.publicId

/-- `Client::join_channel` (client.rs lines 191-206). -/
def Client.join_channel (c : Client) (ident : ChannelIdentifier) :
    Client × List Action :=
  if ident ∈ c.channels then
    (c, [])
  else
    ({ c with channels := c.channels ++ [ident] },
     [.GossipSubscribe (topic_from_channel ident)])

/-- `Client::leave_channel` (client.rs lines 211-224). Note: the source
calls `gossipsub.subscribe`, not `unsubscribe`, on the leave path; the
model reproduces this. -/
def Client.leave_channel (c : Client) (ident : ChannelIdentifier) :
    Client × List Action :=
  match c.channels.indexOf? ident with
  | some idx =>
    ({ c with channels := c.channels.eraseIdx idx },
     [.GossipSubscribe (topic_from_channel ident)])
  | none => (c, [])

/-- `Client::fetch_nickname` (client.rs lines 292-309): return the cache
entry if present; otherwise issue one Kademlia `get_record`, mark the
entry pending (`None`), and return the unresolved value. -/
def Client.fetch_nickname (c : Client) (peer : PeerId) :
    Client × List Action × Option ByteStr :=
  match c.nick_cache peer with
  | some v => (c, [], v)
  | none =>
    let key := (MemoryKey.Nickname peer).encode
    ({ c with nick_cache := cacheInsert c.nick_cache peer none },
     [.KadGetRecord key], none)

/-- `Client::handle_message` (client.rs lines 408-459): decode the gossip
message, choose the acceptance, update the nickname cache on a nickname
update, report the validation result, and produce at most one
`ClientEvent`. -/
def Client.handle_message (c : Client) (data : List Nat) (source : PeerId) :
    Client × List Action × Option ClientEvent :=
  match Command.decode data with
  | .ok cmd =>
    let acceptance : MessageAcceptance :=
      if cmd.is_valid then .Accept else .Reject
    let warnActions : List Action :=
      if cmd.is_valid then [] else [.LogWarning]
    match cmd with
    | .MessageSend contents channel timestamp messageType =>
      (c, warnActions ++ [.ReportMessageValidationResult acceptance],
       some (.Message contents channel timestamp messageType source))
    | .NicknameUpdate nick =>
      ({ c with nick_cache := cacheInsert c.nick_cache source (some nick) },
       warnActions ++ [.ReportMessageValidationResult acceptance],
       some (.UpdatedNickname nick source))
    | _ =>
      (c, warnActions ++ [.ReportMessageValidationResult acceptance], none)
  | .error _ =>
    (c, [.LogWarning, .ReportMessageValidationResult .Reject], none)

/-- A record returned by a Kademlia `GetRecord` query (the `PeerRecord`
payload): key bytes and the signed-envelope value. -/
structure PeerRecord where
  key : List Nat
  value : SignedEnvelope
  deriving DecidableEq, Repr

/-- The Kademlia `GetRecordOk` branch of `Client::handle_event` (client.rs
lines 334-362): process the returned records in order. A `?`-propagated
decode error aborts the loop (mutations already made persist, which the
`Client` component of the result records); a key/owner mismatch warns and
returns early with no event; a record passing both checks populates the
nickname cache. The `Except` component is the function's return value,
whose error case the stream adapter's `unwrap_or(None)` maps to "no
event". -/
def Client.processRecords (c : Client) :
    List PeerRecord → Client × List Action × Except Error (Option ClientEvent)
  | [] => (c, [], .ok none)
  | r :: rs =>
    match MemoryKey.decode r.key with
    | .error e => (c, [], .error e)
    | .ok key =>
      match MemoryValue.decode r.value with
      | .error e => (c, [], .error e)
      | .ok value =>
        match key, value with
        | .Nickname k, .Nickname user nickname =>
          if user ≠ k then
            (c, [.LogWarning], .ok none)
          else
            Client.processRecords
              { c with nick_cache := cacheInsert c.nick_cache k (some nickname) }
              rs
        | _, _ => Client.processRecords c rs

/-! ## Helper lemmas -/

/-- A command that `Command::decode` returns has passed `check_valid`. -/
theorem Command.decode_ok_is_valid {data : List Nat} {cmd : Command}
    (h : Command.decode data = .ok cmd) : cmd.is_valid = true := by
  unfold Command.decode at h
  rcases hp : parseCommand data with _ | ⟨dec, rest⟩ <;> rw [hp] at h
  · exact absurd h (by simp)
  · unfold Command.check_valid at h
    by_cases hv : dec.is_valid
    · simp [hv] at h
      exact h ▸ hv
    · simp [hv] at h

/-- The Kademlia `GetRecord` branch never produces a `ClientEvent`: its
normal return value is always `Ok(None)`. -/
theorem Client.processRecords_no_event (c : Client) (l : List PeerRecord) :
    ∀ evt, (c.processRecords l).2.2 ≠ Except.ok (some evt) := by
  induction l generalizing c with
  | nil => intro evt; simp [Client.processRecords]
  | cons r rs ih =>
    intro evt
    unfold Client.processRecords
    rcases hk : MemoryKey.decode r.key with e | key
    · simp
    · rcases hv : MemoryValue.decode r.value with e | value
      · simp
      · rcases key with k | s <;> rcases value with ⟨user, nickname⟩ | ch
        · by_cases hu : user = k
          · simp [hu]
            exact ih _ evt
          · simp [hu]
        · simp; exact ih _ evt
        · simp; exact ih _ evt
        · simp; exact ih _ evt

/-! ## Claims -/

/-- C1: for every `Command` satisfying `is_valid`, `encode` succeeds and
`decode` of the produced bytes yields the same command back; for every
`Command` failing `is_valid`, `encode` returns an error rather than
bytes. -/
theorem command_encode_decode_roundtrip (c : Command) :
    (c.is_valid = true →
      ∃ bytes, c.encode = .ok bytes ∧ Command.decode bytes = .ok c) ∧
    (c.is_valid = false → ∃ e, c.encode = .error e) := by
  constructor
  · intro hv
    refine ⟨encCommand c, ?_, ?_⟩
    · simp [Command.encode, Command.check_valid, hv]
    · have hp : parseCommand (encCommand c) = some (c, []) := by
        simpa using parseCommand_encCommand c []
      simp [Command.decode, hp, Command.check_valid, hv]
  · intro hv
    exact ⟨.InvalidData "command is not valid",
      by simp [Command.encode, Command.check_valid, hv]⟩

/-- Witness for C1 at a valid and an invalid concrete command. -/
theorem command_encode_decode_roundtrip_witness :
    (∃ bytes, (Command.NicknameUpdate [97]).encode = .ok bytes ∧
      Command.decode bytes = .ok (Command.NicknameUpdate [97])) ∧
    (∃ e, (Command.NicknameUpdate []).encode = .error e) :=
  ⟨(command_encode_decode_roundtrip (.NicknameUpdate [97])).1 (by decide),
   (command_encode_decode_roundtrip (.NicknameUpdate [])).2 (by decide)⟩

/-- The per-variant validity policy exactly as claim C2 words it: a
`MessageSend` needs non-empty contents of at most `MAX_MESSAGE_LENGTH`
units and a channel identifier of at most
`MAX_CHANNEL_IDENTIFIER_LENGTH` units (no non-emptiness requirement on
the channel); a `NicknameUpdate` needs a non-empty nickname of at most
`MAX_NICK_LENGTH` units; the remaining variants are always valid. -/
def claimedValidityC2 : Command → Bool
  | .MessageSend contents channel _ _ =>
    !contents.isEmpty && contents.length ≤ MAX_MESSAGE_LENGTH &&
      channel.length ≤ MAX_CHANNEL_IDENTIFIER_LENGTH
  | .NicknameUpdate nick =>
    !nick.isEmpty && nick.length ≤ MAX_NICK_LENGTH
  | _ => true

/-- The validity policy as amended: a `MessageSend` additionally requires a
non-empty channel identifier. -/
def amendedValidityC2 : Command → Bool
  | .MessageSend contents channel _ _ =>
    !contents.isEmpty && contents.length ≤ MAX_MESSAGE_LENGTH &&
      !channel.isEmpty && channel.length ≤ MAX_CHANNEL_IDENTIFIER_LENGTH
  | .NicknameUpdate nick =>
    !nick.isEmpty && nick.length ≤ MAX_NICK_LENGTH
  | _ => true

/-- C2 counterexample: a `MessageSend` with non-empty in-bounds contents
but an empty channel identifier is valid under the claim's policy yet
invalid under `Command::is_valid` (the code also requires a non-empty
channel, and its own test suite asserts the empty channel is rejected). -/
theorem command_is_valid_claimed_policy_counterexample :
    (Command.MessageSend [104] [] 0 .Normal).is_valid = false ∧
    claimedValidityC2 (Command.MessageSend [104] [] 0 .Normal) = true := by
  decide

set_option maxRecDepth 8192 in
/-- C2 (amended): `Command::is_valid` agrees everywhere with the amended
per-variant policy (which adds the non-empty channel requirement), and the
boundary cases hold: contents of length 512 valid, 513 invalid; channel of
the maximum length 20 valid, 21 invalid; empty contents invalid regardless
of channel; nickname of length 20 valid, 21 invalid, empty invalid; the
metadata/join/leave variants always valid. -/
theorem command_is_valid_amended_policy :
    (∀ c : Command, c.is_valid = amendedValidityC2 c) ∧
    (Command.MessageSend (List.replicate 512 104) [104] 0 .Normal).is_valid
      = true ∧
    (Command.MessageSend (List.replicate 513 104) [104] 0 .Normal).is_valid
      = false ∧
    (Command.MessageSend [104] (List.replicate 20 104) 0 .Normal).is_valid
      = true ∧
    (Command.MessageSend [104] (List.replicate 21 104) 0 .Normal).is_valid
      = false ∧
    (∀ channel ts mt,
      (Command.MessageSend [] channel ts mt).is_valid = false) ∧
    (Command.NicknameUpdate (List.replicate 20 104)).is_valid = true ∧
    (Command.NicknameUpdate (List.replicate 21 104)).is_valid = false ∧
    (Command.NicknameUpdate []).is_valid = false ∧
    (∀ ch, (Command.ChannelUpdate ch).is_valid = true) ∧
    (∀ ident, (Command.ChannelRequestJoin ident).is_valid = true) ∧
    (∀ ident, (Command.ChannelRequestLeave ident).is_valid = true) := by
  refine ⟨fun c => ?_, by decide, by decide, by decide, by decide,
    fun channel ts mt => ?_, by decide, by decide, by decide,
    fun ch => rfl, fun ident => rfl, fun ident => rfl⟩
  · cases c <;> rfl
  · simp [Command.is_valid]

/-- C3: opening the signed envelope produced by signing a `MemoryValue`
with an identity returns the value exactly when the owner declared inside
the value equals the identity's public identifier, and fails with
`SignatureMismatch` whenever the declared owner differs from the
signer. -/
theorem memoryvalue_decode_encode_signed (v : MemoryValue) (key : Keypair) :
    (v.declaredOwner = key.publicId →
      MemoryValue.decode (v.encode_signed key) = .ok v) ∧
    (v.declaredOwner ≠ key.publicId →
      MemoryValue.decode (v.encode_signed key) = .error .SignatureMismatch)
    := by
  have hp : parseMemoryValue (encMemoryValue v) = some (v, []) := by
    simpa using parseMemoryValue_encMemoryValue v []
  cases v with
  | Nickname user nickname =>
    constructor
    · intro h
      simp only [MemoryValue.declaredOwner] at h
      subst h
      simp [MemoryValue.decode, MemoryValue.encode_signed,
        SignedEnvelope.payload_and_signing_key, hp]
    · intro h
      simp only [MemoryValue.declaredOwner] at h
      simp [MemoryValue.decode, MemoryValue.encode_signed,
        SignedEnvelope.payload_and_signing_key, hp, h]
  | Channel ch =>
    constructor
    · intro h
      simp only [MemoryValue.declaredOwner] at h
      simp [MemoryValue.decode, MemoryValue.encode_signed,
        SignedEnvelope.payload_and_signing_key, hp, h]
    · intro h
      simp only [MemoryValue.declaredOwner] at h
      simp [MemoryValue.decode, MemoryValue.encode_signed,
        SignedEnvelope.payload_and_signing_key, hp, h]

/-- Witness for C3: a nickname binding signed by its declared owner opens
to the value; the same binding signed by a different identity is rejected
with `SignatureMismatch`. -/
theorem memoryvalue_decode_encode_signed_witness :
    MemoryValue.decode
      ((MemoryValue.Nickname 1 [97]).encode_signed ⟨1⟩) =
      .ok (MemoryValue.Nickname 1 [97]) ∧
    MemoryValue.decode
      ((MemoryValue.Nickname 1 [97]).encode_signed ⟨2⟩) =
      .error .SignatureMismatch :=
  ⟨(memoryvalue_decode_encode_signed (.Nickname 1 [97]) ⟨1⟩).1 (by decide),
   (memoryvalue_decode_encode_signed (.Nickname 1 [97]) ⟨2⟩).2 (by decide)⟩

/-- C4: for every gossip message, if `Command::decode` fails (malformed
bytes or a command failing validation), the engine reports `Reject` and
emits no `ClientEvent`, leaving its state unchanged; if it succeeds, the
engine reports `Accept`, updates the nickname cache when the command is a
nickname update, and emits the corresponding event; any emitted event
comes from a successfully decoded command satisfying `is_valid`. -/
theorem handle_message_validation (c : Client) (data : List Nat)
    (source : PeerId) :
    (∀ e, Command.decode data = .error e →
      c.handle_message data source =
        (c, [.LogWarning, .ReportMessageValidationResult .Reject], none)) ∧
    (∀ cmd, Command.decode data = .ok cmd →
      (c.handle_message data source).2.1 =
        [.ReportMessageValidationResult .Accept] ∧
      (∀ nick, cmd = .NicknameUpdate nick →
        (c.handle_message data source).1.nick_cache =
          cacheInsert c.nick_cache source (some nick) ∧
        (c.handle_message data source).2.2 =
          some (.UpdatedNickname nick source)) ∧
      (∀ contents channel ts mt, cmd = .MessageSend contents channel ts mt →
        (c.handle_message data source).1 = c ∧
        (c.handle_message data source).2.2 =
          some (.Message contents channel ts mt source))) ∧
    (∀ evt, (c.handle_message data source).2.2 = some evt →
      ∃ cmd, Command.decode data = .ok cmd ∧ cmd.is_valid = true) := by
  refine ⟨fun e h => by simp [Client.handle_message, h],
    fun cmd h => ?_, fun evt _ => ?_⟩
  · have hv := Command.decode_ok_is_valid h
    refine ⟨?_, ?_, ?_⟩
    · cases cmd <;> simp_all [Client.handle_message]
    · rintro nick rfl
      simp_all [Client.handle_message]
    · rintro contents channel ts mt rfl
      simp_all [Client.handle_message]
  · rcases hd : Command.decode data with e | cmd
    · simp [Client.handle_message, hd] at *
    · exact ⟨cmd, rfl, Command.decode_ok_is_valid hd⟩

/-- Witness for C4: a decoded nickname update is accepted, the cache is
updated, and the matching event is emitted for a concrete client. -/
theorem handle_message_validation_witness :
    ((Client.new [110] ⟨5⟩).1.handle_message
        (encCommand (.NicknameUpdate [97])) 9).2.1 =
      [.ReportMessageValidationResult .Accept] ∧
    ((Client.new [110] ⟨5⟩).1.handle_message
        (encCommand (.NicknameUpdate [97])) 9).2.2 =
      some (.UpdatedNickname [97] 9) :=
  ⟨((handle_message_validation (Client.new [110] ⟨5⟩).1
      (encCommand (.NicknameUpdate [97])) 9).2.1
      (.NicknameUpdate [97]) rfl).1,
   (((handle_message_validation (Client.new [110] ⟨5⟩).1
      (encCommand (.NicknameUpdate [97])) 9).2.1
      (.NicknameUpdate [97]) rfl).2.1 [97] rfl).2⟩

/-- Whether an action is a message-validation report to the gossip layer. -/
def Action.isValidationReport : Action → Bool
  | .ReportMessageValidationResult _ => true
  | _ => false

/-- C10: every gossip message handled by the engine produces exactly one
validation report, and a decoded `ChannelUpdate`, `ChannelRequestJoin` or
`ChannelRequestLeave` is accepted while emitting no `ClientEvent` and
changing no engine state. -/
theorem handle_message_single_report (c : Client) (data : List Nat)
    (source : PeerId) :
    ((c.handle_message data source).2.1.filter
      Action.isValidationReport).length = 1 ∧
    (∀ ch, Command.decode data = .ok (.ChannelUpdate ch) →
      c.handle_message data source =
        (c, [.ReportMessageValidationResult .Accept], none)) ∧
    (∀ ident, Command.decode data = .ok (.ChannelRequestJoin ident) →
      c.handle_message data source =
        (c, [.ReportMessageValidationResult .Accept], none)) ∧
    (∀ ident, Command.decode data = .ok (.ChannelRequestLeave ident) →
      c.handle_message data source =
        (c, [.ReportMessageValidationResult .Accept], none)) := by
  refine ⟨?_, fun ch h => ?_, fun ident h => ?_, fun ident h => ?_⟩
  · rcases hd : Command.decode data with e | cmd
    · simp [Client.handle_message, hd, Action.isValidationReport]
    · have hv := Command.decode_ok_is_valid hd
      cases cmd <;>
        simp_all [Client.handle_message, Action.isValidationReport]
  all_goals
    simp [Client.handle_message, h, Command.is_valid]

/-- Witness for C10: a decoded join request is accepted with no event and
no state change for a concrete client. -/
theorem handle_message_single_report_witness :
    (Client.new [110] ⟨5⟩).1.handle_message
        (encCommand (.ChannelRequestJoin [103])) 9 =
      ((Client.new [110] ⟨5⟩).1,
       [.ReportMessageValidationResult .Accept], none) :=
  (handle_message_single_report (Client.new [110] ⟨5⟩).1
    (encCommand (.ChannelRequestJoin [103])) 9).2.2.1 [103] rfl

/-- C5 (code evaluation at the failing input): for a client that is in
channel `[103]`, `leave_channel [103]` removes the channel from the
membership list but emits a gossipsub *subscribe* for the derived topic —
`Client::leave_channel` calls `gossipsub.subscribe`, never `unsubscribe`,
contradicting the documented leave semantics. -/
theorem leave_channel_emits_subscribe :
    (((Client.new [110] ⟨5⟩).1.join_channel [103]).1.leave_channel
        [103]).2 =
      [.GossipSubscribe (topic_from_channel [103])] ∧
    (((Client.new [110] ⟨5⟩).1.join_channel [103]).1.leave_channel
        [103]).1.channels = [] ∧
    ∀ t, Action.GossipUnsubscribe t ∉
      (((Client.new [110] ⟨5⟩).1.join_channel [103]).1.leave_channel
        [103]).2 := by
  refine ⟨rfl, rfl, fun t => ?_⟩
  simp [Client.new, Client.join_channel, Client.leave_channel,
    List.indexOf?, List.findIdx?]

/-- C6: for a peer with no nickname-cache entry, the first
`fetch_nickname` issues exactly one Kademlia `get_record`, marks the entry
pending, and returns unresolved; a second call on the resulting state
issues no further query, returns unresolved, and leaves the state
unchanged; for a resolved peer, `fetch_nickname` returns the cached
nickname with no query. -/
theorem fetch_nickname_idempotent_pending (c : Client) (peer : PeerId) :
    (c.nick_cache peer = none →
      (c.fetch_nickname peer).2.1 =
        [.KadGetRecord ((MemoryKey.Nickname peer).encode)] ∧
      (c.fetch_nickname peer).2.2 = none ∧
      (c.fetch_nickname peer).1.nick_cache peer = some none ∧
      ((c.fetch_nickname peer).1.fetch_nickname peer).2.1 = [] ∧
      ((c.fetch_nickname peer).1.fetch_nickname peer).2.2 = none ∧
      ((c.fetch_nickname peer).1.fetch_nickname peer).1 =
        (c.fetch_nickname peer).1) ∧
    (∀ nick, c.nick_cache peer = some (some nick) →
      c.fetch_nickname peer = (c, [], some nick)) := by
  constructor
  · intro h
    simp [Client.fetch_nickname, h, cacheInsert]
  · intro nick h
    simp [Client.fetch_nickname, h]

/-- Witness for C6 on a fresh client: an unknown peer yields one query and
then none; the client's own (resolved) entry is returned with no query. -/
theorem fetch_nickname_idempotent_pending_witness :
    ((Client.new [110] ⟨5⟩).1.fetch_nickname 7).2.1 =
      [.KadGetRecord ((MemoryKey.Nickname 7).encode)] ∧
    (((Client.new [110] ⟨5⟩).1.fetch_nickname 7).1.fetch_nickname 7).2.1 =
      [] ∧
    (Client.new [110] ⟨5⟩).1.fetch_nickname 5 =
      ((Client.new [110] ⟨5⟩).1, [], some [110]) :=
  ⟨((fetch_nickname_idempotent_pending (Client.new [110] ⟨5⟩).1 7).1 rfl).1,
   ((fetch_nickname_idempotent_pending (Client.new [110] ⟨5⟩).1 7).1
     rfl).2.2.2.1,
   (fetch_nickname_idempotent_pending (Client.new [110] ⟨5⟩).1 5).2
     [110] rfl⟩

/-- C7 counterexample: a DHT record whose declared owner (peer 1) differs
from its signer (peer 2) is *not* "discarded with a warning": the
`?`-propagated `SignatureMismatch` error aborts the whole batch with no
warning logged, and a well-formed record after it is never processed (peer
3's cache entry stays unpopulated). -/
theorem kad_record_claim_counterexample :
    ((Client.new [110] ⟨5⟩).1.processRecords
        [⟨(MemoryKey.Nickname 1).encode,
          (MemoryValue.Nickname 1 [97]).encode_signed ⟨2⟩⟩,
         ⟨(MemoryKey.Nickname 3).encode,
          (MemoryValue.Nickname 3 [98]).encode_signed ⟨3⟩⟩]).2.1 = [] ∧
    ((Client.new [110] ⟨5⟩).1.processRecords
        [⟨(MemoryKey.Nickname 1).encode,
          (MemoryValue.Nickname 1 [97]).encode_signed ⟨2⟩⟩,
         ⟨(MemoryKey.Nickname 3).encode,
          (MemoryValue.Nickname 3 [98]).encode_signed ⟨3⟩⟩]).2.2 =
      .error .SignatureMismatch ∧
    ((Client.new [110] ⟨5⟩).1.processRecords
        [⟨(MemoryKey.Nickname 1).encode,
          (MemoryValue.Nickname 1 [97]).encode_signed ⟨2⟩⟩,
         ⟨(MemoryKey.Nickname 3).encode,
          (MemoryValue.Nickname 3 [98]).encode_signed ⟨3⟩⟩]).1.nick_cache 3 =
      none := by
  refine ⟨rfl, rfl, rfl⟩

/-- C7 (amended): a record whose envelope fails to open (including the
owner/signer mismatch, surfaced as `SignatureMismatch`) aborts the batch
with that error — no warning, no event, no cache change; a record whose
DHT key names a different peer than the value's owner is discarded with a
warning and ends processing with no event and no cache change; a record
passing both checks populates the nickname cache and processing continues;
and no execution of the `GetRecord` branch ever emits a `ClientEvent`. -/
theorem kad_record_poisoned_handling (c : Client) (r : PeerRecord)
    (rs : List PeerRecord) :
    (∀ k e, MemoryKey.decode r.key = .ok k →
      MemoryValue.decode r.value = .error e →
      c.processRecords (r :: rs) = (c, [], .error e)) ∧
    (∀ k user nickname, MemoryKey.decode r.key = .ok (.Nickname k) →
      MemoryValue.decode r.value = .ok (.Nickname user nickname) →
      user ≠ k →
      c.processRecords (r :: rs) = (c, [.LogWarning], .ok none)) ∧
    (∀ k nickname, MemoryKey.decode r.key = .ok (.Nickname k) →
      MemoryValue.decode r.value = .ok (.Nickname k nickname) →
      c.processRecords (r :: rs) =
        Client.processRecords
          { c with nick_cache := cacheInsert c.nick_cache k (some nickname) }
          rs) ∧
    (∀ l evt, (c.processRecords l).2.2 ≠ Except.ok (some evt)) := by
  refine ⟨fun k e hk hv => ?_, fun k user nickname hk hv hu => ?_,
    fun k nickname hk hv => ?_, fun l evt => Client.processRecords_no_event c l evt⟩
  · cases k <;> simp [Client.processRecords, hk, hv]
  · simp [Client.processRecords, hk, hv, hu]
  · simp [Client.processRecords, hk, hv]

/-- Witness for C7 (amended) at concrete records: a signer-mismatched
record aborts with `SignatureMismatch`; a key/owner-mismatched record
warns and stops; a consistent record populates the cache. -/
theorem kad_record_poisoned_handling_witness :
    (Client.new [110] ⟨5⟩).1.processRecords
        [⟨(MemoryKey.Nickname 1).encode,
          (MemoryValue.Nickname 1 [97]).encode_signed ⟨2⟩⟩] =
      ((Client.new [110] ⟨5⟩).1, [], .error .SignatureMismatch) ∧
    (Client.new [110] ⟨5⟩).1.processRecords
        [⟨(MemoryKey.Nickname 4).encode,
          (MemoryValue.Nickname 3 [98]).encode_signed ⟨3⟩⟩] =
      ((Client.new [110] ⟨5⟩).1, [.LogWarning], .ok none) ∧
    ((Client.new [110] ⟨5⟩).1.processRecords
        [⟨(MemoryKey.Nickname 3).encode,
          (MemoryValue.Nickname 3 [98]).encode_signed ⟨3⟩⟩]).1.nick_cache 3 =
      some (some [98]) :=
  ⟨(kad_record_poisoned_handling (Client.new [110] ⟨5⟩).1 _ []).1
    (.Nickname 1) .SignatureMismatch rfl rfl,
   (kad_record_poisoned_handling (Client.new [110] ⟨5⟩).1 _ []).2.1
    4 3 [98] rfl rfl (by decide),
   by
    rw [(kad_record_poisoned_handling (Client.new [110] ⟨5⟩).1
      ⟨(MemoryKey.Nickname 3).encode,
        (MemoryValue.Nickname 3 [98]).encode_signed ⟨3⟩⟩ []).2.2.1
      3 [98] rfl rfl]
    rfl⟩

/-- C8: topic derivation is a pure function of the channel identifier,
equal to the fixed prefix concatenated with the identifier; in particular
the topic for "general" is the literal concatenation. -/
theorem topic_from_channel_deterministic (ident : ChannelIdentifier) :
    topic_from_channel ident = strBytes "/p2p-chat/channel/" ++ ident ∧
    topic_from_channel (strBytes "general") =
      strBytes "/p2p-chat/channel/general" :=
  ⟨rfl, rfl⟩

/-- C9: a freshly constructed client has its own `PeerId` seeded resolved
in the nickname cache, so `fetch_nickname` on the own peer identifier
returns the own nickname immediately, with no DHT query and no state
change. -/
theorem client_new_seeds_own_nickname (nick : ByteStr) (id_keys : Keypair) :
    (Client.new nick id_keys).1.fetch_nickname
        ((Client.new nick id_keys).1.peer_id) =
      ((Client.new nick id_keys).1, [], some nick) := by
  simp [Client.new, Client.peer_id, Client.fetch_nickname, cacheInsert]

end P2PChat
